import Mathlib

/-!
Shallow embedding of `src/orchestrator/workflows/agent_saga.py`
(OmniLink-APEX orchestration kernel): the saga compensation engine
(`SagaContext`), the event-sourced workflow state machine (`AgentWorkflow`),
and the plan-execution / rollback protocol.

External collaborators (Temporal activity execution, the LLM planner, the
semantic cache) are modelled as explicit function-valued parameters: the
Python code only ever reaches them through `workflow.execute_activity`, so a
collaborator is a function from the activity's arguments to
`Except String result` (`Except.error` models a raised `ActivityError` after
the collaborator's retry budget is exhausted; retry/timeout policy lives
inside the collaborator boundary and is not part of the kernel's logic).

Python `dict[str, Any]` values are modelled as insertion-ordered association
lists over a small `Value` universe; `dict.get`, truthiness and insertion
mirror CPython semantics on string-keyed dicts.
-/

namespace AgentSaga

/-- Universe of the `Any`-typed payload values the orchestrator moves around
(tool inputs, tool results, compensation inputs). -/
inductive Value where
  | str (s : String)
  | int (n : Int)
  | bool (b : Bool)
  | null
deriving DecidableEq, Repr

/-- Python `dict[str, Any]`: insertion-ordered association list. -/
abbrev Dict := List (String × Value)

/-- Python `d.get(k)` / `d.get(k, default)` support: first binding of `k`. -/
def dictGet (d : Dict) (k : String) : Option Value :=
  match d with
  | [] => Option.none
  | (k', v) :: rest => if k' = k then some v else dictGet rest k

/-- Python `d[k] = v` on a string-keyed dict: overwrite in place if the key
exists (keeping its position), else append at the end. -/
def dictInsert (d : List (String × Dict)) (k : String) (v : Dict) :
    List (String × Dict) :=
  match d with
  | [] => [(k, v)]
  | (k', v') :: rest =>
      if k' = k then (k, v) :: rest else (k', v') :: dictInsert rest k v

/-- Python `str.replace(pat, rep)` (all non-overlapping occurrences, scanned
left to right), on char lists, with fuel for structural recursion; the fuel
is instantiated with the string length, which bounds the number of scan
steps. -/
def replaceChars (pat rep : List Char) : Nat → List Char → List Char
  | _, [] => []
  | 0, rest => rest
  | fuel+1, c :: cs =>
    if pat ≠ [] ∧ pat.isPrefixOf (c :: cs) then
      rep ++ replaceChars pat rep fuel ((c :: cs).drop pat.length)
    else
      c :: replaceChars pat rep fuel cs

/-- Python `s.replace(pat, rep)`. -/
def pyReplace (s pat rep : String) : String :=
  ⟨replaceChars pat.data rep.data s.data.length s.data⟩

/-- Python `s.startswith(pat)`. -/
def pyStartsWith (s pat : String) : Bool := pat.data.isPrefixOf s.data

/-- `CompensationStep` (agent_saga.py lines 61-71): a compensation to execute
on rollback, stored on the LIFO compensation stack. -/
structure CompensationStep where
  activity_name : String
  input : Dict
  step_id : String
deriving DecidableEq, Repr

/-- State of `SagaContext` (agent_saga.py lines 74-108). The
`workflow_instance` back-reference is not state: it is the handle through
which activities are invoked, modelled below by passing the activity
collaborator explicitly to each operation. -/
structure SagaContext where
  compensation_stack : List CompensationStep := []
  rollback_executed : Bool := false
deriving DecidableEq, Repr

/-- Activity-execution collaborator (`AgentWorkflow._execute_activity`,
lines 553-580): takes activity name, input, step id, and the
`is_compensation` flag; returns the result dict or raises (models
`ActivityError` after the retry budget inside the boundary is exhausted). -/
abbrev ExecFn := String → Dict → String → Bool → Except String Dict

/-- `SagaContext._inject_result_values` (lines 205-225): for each entry of
the compensation input, a string value starting with `"{result."` has its
field name extracted by `value.replace("{result.", "").replace("}", "")`
and is replaced by `result.get(field_name, value)`; other values pass
through. -/
def SagaContext.inject_result_values (compensation_input : Dict)
    (result : Dict) : Dict :=
  compensation_input.map (fun kv =>
    match kv with
    | (key, Value.str s) =>
        if pyStartsWith s "\x7bresult." then
          let field_name := pyReplace (pyReplace s "\x7bresult." "") "\x7d" ""
          (key, (dictGet result field_name).getD (Value.str s))
        else (key, Value.str s)
    | (key, v) => (key, v))

/-- Outcome of `SagaContext.execute_with_compensation`: the saga state after
the call together with the returned result (`Except.error` models the
exception propagating to the caller). -/
def SagaContext.execute_with_compensation (saga : SagaContext) (exec : ExecFn)
    (activity_name : String) (activity_input : Dict)
    (compensation_activity : Option String)
    (compensation_input : Option Dict)
    (step_id : String) : SagaContext × Except String Dict :=
  match exec activity_name activity_input step_id false with
  | Except.error e => (saga, Except.error e)
  | Except.ok result =>
      match compensation_activity with
      | Option.none => (saga, Except.ok result)
      | some comp =>
          let comp_input := compensation_input.getD []
          let injected := SagaContext.inject_result_values comp_input result
          let compensation : CompensationStep :=
            ⟨comp, injected, step_id⟩
          ({ saga with
              compensation_stack := saga.compensation_stack ++ [compensation] },
            Except.ok result)

/-- One entry of the list returned by `rollback()` (lines 192, 200): either
`\x7b"step_id", "success": True, "result"\x7d` or
`\x7b"step_id", "success": False, "error"\x7d`. -/
structure RollbackResult where
  step_id : String
  success : Bool
  result : Option Dict
  error : Option String
deriving DecidableEq, Repr

/-- Result of `SagaContext.rollback`: the saga state afterwards, the audit
list the call returns, and the trace of compensation activity invocations
actually issued (in issue order, one at a time). -/
structure RollbackOutcome where
  saga : SagaContext
  results : List RollbackResult
  calls : List CompensationStep
deriving DecidableEq, Repr

/-- Loop body of `rollback()` (lines 182-201): for each compensation, invoke
its activity (with `is_compensation=True`); append a success entry on
`ok`, a failure entry on error (best-effort: the loop continues), and
record the invocation in the call trace. -/
def rollbackLoop (exec : ExecFn)
    (acc : List RollbackResult × List CompensationStep)
    (comps : List CompensationStep) :
    List RollbackResult × List CompensationStep :=
  match comps with
  | [] => acc
  | c :: rest =>
      let entry :=
        match exec c.activity_name c.input c.step_id true with
        | Except.ok r =>
            ({ step_id := c.step_id, success := true, result := some r,
               error := Option.none } : RollbackResult)
        | Except.error e =>
            ({ step_id := c.step_id, success := false, result := Option.none,
               error := some e } : RollbackResult)
      rollbackLoop exec (acc.1 ++ [entry], acc.2 ++ [c]) rest

/-- `SagaContext.rollback` (lines 159-203): if `rollback_executed` is
already set, return `[]` and do nothing; otherwise set the flag, return
`[]` if the stack is empty, and otherwise execute every stack entry in
reverse registration order (the Python iterates
`reversed(self.compensation_stack)`), collecting one audit entry per
compensation. The stack list itself is never mutated. -/
def SagaContext.rollback (saga : SagaContext) (exec : ExecFn) :
    RollbackOutcome :=
  if saga.rollback_executed then
    ⟨saga, [], []⟩
  else
    let saga' : SagaContext := { saga with rollback_executed := true }
    if saga'.compensation_stack.isEmpty then
      ⟨saga', [], []⟩
    else
      let (results, calls) :=
        rollbackLoop exec ([], []) saga'.compensation_stack.reverse
      ⟨saga', results, calls⟩

/-- Cached plan returned by the `check_semantic_cache` collaborator:
`\x7bplan_id, steps, template_id\x7d` (run(), lines 322-333). Plan steps are
structured records mirroring the step dicts the planner emits; optional
fields model `step.get(...)` lookups with their defaults. -/
structure PlanStep where
  id : Option String
  name : Option String
  tool : String
  input : Dict
  compensation : Option String
  compensation_input : Option Dict
deriving DecidableEq, Repr

/-- Computed step id: `step.get("id", f"step_\x7bidx\x7d")` (line 417). -/
def PlanStep.stepId (step : PlanStep) (idx : Nat) : String :=
  step.id.getD ("step_" ++ toString idx)

/-- Plan returned by the `generate_plan_with_llm` collaborator:
`\x7bplan_id, steps\x7d` (lines 336-344). -/
structure Plan where
  plan_id : String
  steps : List PlanStep
deriving DecidableEq, Repr

/-- Cached plan: `\x7bplan_id, steps, template_id\x7d` (lines 322-333). -/
structure CachedPlan where
  plan_id : String
  steps : List PlanStep
  template_id : Option String
deriving DecidableEq, Repr

/-- Event union from `models.events` as constructed by the workflow
(agent_saga.py lines 44-53 import, construction sites at lines 309-316,
325-344, 423-431, 444-466, 482-490, 510-519). `final_result` and
`compensation_results` carry the structured payloads the workflow builds. -/
inductive AgentEvent where
  | goalReceived (correlation_id goal user_id : String) (context : Option Dict)
  | planGenerated (correlation_id plan_id : String) (steps : List PlanStep)
      (cache_hit : Bool) (template_id : Option String)
  | toolCallRequested (correlation_id tool_name : String) (tool_input : Dict)
      (step_id : String) (compensation_activity : Option String)
  | toolResultReceived (correlation_id tool_name step_id : String)
      (success : Bool) (result : Option Dict) (error : Option String)
  | workflowCompleted (correlation_id plan_id : String) (total_steps : Nat)
      (final_result : List (String × Dict))
  | workflowFailed (correlation_id plan_id failed_step_id
      error_message : String) (compensation_executed : Bool)
      (compensation_results : List RollbackResult)
deriving DecidableEq, Repr

/-- Recogniser for the `WorkflowCompleted` variant. -/
def AgentEvent.isWorkflowCompleted : AgentEvent → Bool
  | AgentEvent.workflowCompleted _ _ _ _ => true
  | _ => false

/-- Continue-as-new threshold: `self.MAX_HISTORY_SIZE = 1000` (line 282). -/
def MAX_HISTORY_SIZE : Nat := 1000

/-- Workflow state (`AgentWorkflow.__init__`, lines 265-282): the event log,
the saga context, and the derived-state fields. `checkpoint_log` records, for
each append at which the continue-as-new branch (line 546) fired, the event
count at that moment — the warning/checkpoint signal trace (the cutover
itself is a commented-out TODO at line 551). -/
structure WorkflowState where
  events : List AgentEvent := []
  saga : SagaContext := {}
  goal : String := ""
  user_id : String := ""
  plan_id : String := ""
  plan_steps : List PlanStep := []
  step_results : List (String × Dict) := []
  failed_step_id : String := ""
  checkpoint_log : List Nat := []
deriving DecidableEq, Repr

/-- `AgentWorkflow._append_event` (lines 523-551): append the event, update
the derived state for `GoalReceived` / `PlanGenerated`, then fire the
continue-as-new signal whenever `len(self.events) >= self.MAX_HISTORY_SIZE`. -/
def append_event (st : WorkflowState) (event : AgentEvent) : WorkflowState :=
  let st := { st with events := st.events ++ [event] }
  let st :=
    match event with
    | AgentEvent.goalReceived _ g u _ => { st with goal := g, user_id := u }
    | AgentEvent.planGenerated _ pid steps _ _ =>
        { st with plan_id := pid, plan_steps := steps }
    | _ => st
  if st.events.length ≥ MAX_HISTORY_SIZE then
    { st with checkpoint_log := st.checkpoint_log ++ [st.events.length] }
  else st

/-- Derived-state fields of `RunState`, for replay comparison. -/
structure DerivedState where
  goal : String := ""
  user_id : String := ""
  plan_id : String := ""
  plan_steps : List PlanStep := []
  step_results : List (String × Dict) := []
  failed_step_id : String := ""
deriving DecidableEq, Repr

/-- State-update function of `_append_event` (lines 537-543): the only event
handlers present in the code are for `GoalReceived` and `PlanGenerated`;
every other event leaves the derived state untouched. -/
def update_derived (d : DerivedState) (event : AgentEvent) : DerivedState :=
  match event with
  | AgentEvent.goalReceived _ g u _ => { d with goal := g, user_id := u }
  | AgentEvent.planGenerated _ pid steps _ _ =>
      { d with plan_id := pid, plan_steps := steps }
  | _ => d

/-- Pure fold of the `_append_event` state-update function over an event
list, from the initial state (`__init__`, lines 273-279). -/
def replay (events : List AgentEvent) : DerivedState :=
  events.foldl update_derived {}

/-- Derived-state fields of a workflow state, for comparison with `replay`. -/
def WorkflowState.derived (st : WorkflowState) : DerivedState :=
  { goal := st.goal, user_id := st.user_id, plan_id := st.plan_id,
    plan_steps := st.plan_steps, step_results := st.step_results,
    failed_step_id := st.failed_step_id }

/-- The collaborators the workflow reaches through the activity-execution
boundary: the semantic-cache lookup, the LLM planner, and tool/compensation
activity execution. -/
structure Collaborators where
  check_semantic_cache : String → Except String (Option CachedPlan)
  generate_plan_with_llm : String → Dict → Except String Plan
  execute_activity : ExecFn

/-- `AgentWorkflow._check_semantic_cache` (lines 365-381): call the cache
collaborator; `result if result else None` on success, and on
`ActivityError` log and return `None` (treat as a miss). -/
def check_semantic_cache (c : Collaborators) (goal : String) :
    Option CachedPlan :=
  match c.check_semantic_cache goal with
  | Except.ok r => r
  | Except.error _ => Option.none

/-- Body of the `_execute_plan` loop for one step (lines 416-469): append
`ToolCallRequested`, run the step through the saga executor; on success
append `ToolResultReceived(success=True)` and record the result in
`step_results`; on `ActivityError` append `ToolResultReceived(success=False)`,
set `failed_step_id` and re-raise (returned as `some error`). -/
def execute_plan_step (exec : ExecFn) (corr : String)
    (st : WorkflowState) (idx : Nat) (step : PlanStep) :
    WorkflowState × Option String :=
  let step_id := step.stepId idx
  let st := append_event st
    (AgentEvent.toolCallRequested corr step.tool step.input step_id
      step.compensation)
  let sagaOut := st.saga.execute_with_compensation exec
    step.tool step.input step.compensation step.compensation_input step_id
  let st := { st with saga := sagaOut.1 }
  match sagaOut.2 with
  | Except.ok result =>
      let st := append_event st
        (AgentEvent.toolResultReceived corr step.tool step_id true
          (some result) Option.none)
      ({ st with step_results := dictInsert st.step_results step_id result },
        Option.none)
  | Except.error e =>
      let st := append_event st
        (AgentEvent.toolResultReceived corr step.tool step_id false
          Option.none (some e))
      ({ st with failed_step_id := step_id }, some e)

/-- Sequential loop of `_execute_plan` (line 416): `for idx, step in
enumerate(self.plan_steps)`, stopping at the first step whose failure
re-raises. -/
def execute_plan_loop (exec : ExecFn) (corr : String) :
    WorkflowState → Nat → List PlanStep → WorkflowState × Option String
  | st, _, [] => (st, Option.none)
  | st, idx, step :: rest =>
      match execute_plan_step exec corr st idx step with
      | (st', Option.none) => execute_plan_loop exec corr st' (idx + 1) rest
      | (st', some e) => (st', some e)

/-- `AgentWorkflow._execute_plan` (lines 406-469). -/
def execute_plan (exec : ExecFn) (corr : String) (st : WorkflowState) :
    WorkflowState × Option String :=
  execute_plan_loop exec corr st 0 st.plan_steps

/-- Success payload built by `_handle_success` (lines 475-480):
`\x7bstatus, plan_id, steps_executed, results\x7d`. -/
structure SuccessResult where
  status : String
  plan_id : String
  steps_executed : Nat
  results : List (String × Dict)
deriving DecidableEq, Repr

/-- Failure payload built by `_handle_failure` (lines 501-508):
`\x7bstatus, plan_id, failed_step_id, error, compensation_executed,
compensation_results\x7d`. -/
structure FailureResult where
  status : String
  plan_id : String
  failed_step_id : String
  error : String
  compensation_executed : Bool
  compensation_results : List RollbackResult
deriving DecidableEq, Repr

/-- `AgentWorkflow._handle_success` (lines 471-492): build the result
payload, append `WorkflowCompleted`, return the payload. -/
def handle_success (corr : String) (st : WorkflowState) :
    WorkflowState × SuccessResult :=
  let result : SuccessResult :=
    { status := "completed", plan_id := st.plan_id,
      steps_executed := st.plan_steps.length, results := st.step_results }
  let st := append_event st
    (AgentEvent.workflowCompleted corr st.plan_id st.plan_steps.length
      result.results)
  (st, result)

/-- `AgentWorkflow._handle_failure` (lines 494-521): run the saga rollback,
build the failure payload with the literal `compensation_executed=True`
(lines 506 and 516), append `WorkflowFailed`, return the payload. -/
def handle_failure (exec : ExecFn) (corr : String) (st : WorkflowState)
    (error_message : String) : WorkflowState × FailureResult :=
  let rb := st.saga.rollback exec
  let st := { st with saga := rb.saga }
  let result : FailureResult :=
    { status := "failed", plan_id := st.plan_id,
      failed_step_id := st.failed_step_id, error := error_message,
      compensation_executed := true, compensation_results := rb.results }
  let st := append_event st
    (AgentEvent.workflowFailed corr st.plan_id st.failed_step_id
      error_message true rb.results)
  (st, result)

/-- Tail of `run()` after the plan is recorded (lines 346-363): execute the
plan, then `_handle_success`; any step failure is caught by the `except`
branch, which runs `_handle_failure` and re-raises a non-retryable
`ApplicationError` carrying the failure payload (modelled as
`Except.error`). -/
def run_after_plan (exec : ExecFn) (corr : String) (st : WorkflowState) :
    WorkflowState × Except FailureResult SuccessResult :=
  match execute_plan exec corr st with
  | (st, Option.none) =>
      let out := handle_success corr st
      (out.1, Except.ok out.2)
  | (st, some e) =>
      let out := handle_failure exec corr st e
      (out.1, Except.error out.2)

/-- `AgentWorkflow.run` (lines 284-363): fresh state and saga, append
`GoalReceived`, cache lookup (soft-fail), `PlanGenerated` from the cache hit
or from the LLM planner (a planner failure is caught by the `except` branch),
then plan execution and success/failure finalization. -/
def run (c : Collaborators) (corr goal user_id : String)
    (context : Option Dict) :
    WorkflowState × Except FailureResult SuccessResult :=
  let st : WorkflowState := {}
  let st := append_event st
    (AgentEvent.goalReceived corr goal user_id context)
  match check_semantic_cache c goal with
  | some cached =>
      let st := append_event st
        (AgentEvent.planGenerated corr cached.plan_id cached.steps true
          cached.template_id)
      run_after_plan c.execute_activity corr st
  | Option.none =>
      match c.generate_plan_with_llm goal (context.getD []) with
      | Except.ok plan =>
          let st := append_event st
            (AgentEvent.planGenerated corr plan.plan_id plan.steps false
              Option.none)
          run_after_plan c.execute_activity corr st
      | Except.error e =>
          let out := handle_failure c.execute_activity corr st e
          (out.1, Except.error out.2)

/-! Helper definitions and lemmas about the saga rollback. -/

/-- Audit entry produced by one iteration of the `rollback()` loop for a
given compensation (lines 184-200). -/
def rollbackEntry (exec : ExecFn) (c : CompensationStep) : RollbackResult :=
  match exec c.activity_name c.input c.step_id true with
  | Except.ok r =>
      { step_id := c.step_id, success := true, result := some r,
        error := Option.none }
  | Except.error e =>
      { step_id := c.step_id, success := false, result := Option.none,
        error := some e }

lemma rollbackLoop_eq (exec : ExecFn) :
    ∀ (comps : List CompensationStep)
      (acc : List RollbackResult × List CompensationStep),
      rollbackLoop exec acc comps
        = (acc.1 ++ comps.map (rollbackEntry exec), acc.2 ++ comps)
  | [], acc => by simp [rollbackLoop]
  | c :: rest, acc => by
      rw [rollbackLoop, rollbackLoop_eq exec rest]
      simp [rollbackEntry]

lemma rollbackEntry_step_id (exec : ExecFn) (c : CompensationStep) :
    (rollbackEntry exec c).step_id = c.step_id := by
  cases h : exec c.activity_name c.input c.step_id true <;>
    simp [rollbackEntry, h]

lemma rollback_saga_eq (saga : SagaContext) (exec : ExecFn) :
    (saga.rollback exec).saga = { saga with rollback_executed := true } := by
  unfold SagaContext.rollback
  by_cases h : saga.rollback_executed = true
  · simp only [h, if_true]
    cases saga
    simp_all
  · simp only [h, if_false, Bool.false_eq_true]
    split <;> rfl

/-- Claim C1: for a saga on which rollback has not yet run (as holds at the
single rollback invocation of every failed run), `rollback()` returns one
audit entry per compensation-stack entry, in exact reverse registration
order, and the compensation activities are invoked one at a time in that
same reverse order. -/
theorem rollback_executes_all_in_reverse_order (saga : SagaContext)
    (exec : ExecFn) (h : saga.rollback_executed = false) :
    (saga.rollback exec).results.map RollbackResult.step_id
        = (saga.compensation_stack.map CompensationStep.step_id).reverse
    ∧ (saga.rollback exec).calls = saga.compensation_stack.reverse
    ∧ (saga.rollback exec).results.length
        = saga.compensation_stack.length := by
  unfold SagaContext.rollback
  simp only [h, Bool.false_eq_true, if_false]
  by_cases he : saga.compensation_stack.isEmpty
  · rw [List.isEmpty_iff] at he
    simp [he]
  · simp only [he, Bool.false_eq_true, if_false]
    rw [rollbackLoop_eq]
    simp only [List.nil_append]
    refine ⟨?_, by simp, by simp⟩
    rw [List.map_map]
    have hfun : RollbackResult.step_id ∘ rollbackEntry exec
        = CompensationStep.step_id := by
      funext c
      exact rollbackEntry_step_id exec c
    rw [hfun, List.map_reverse]

/-- Stub activity collaborator that always succeeds with an empty dict. -/
def execStub : ExecFn := fun _ _ _ _ => Except.ok []

/-- Concrete saga with two registered compensations. -/
def sagaTwo : SagaContext :=
  { compensation_stack :=
      [⟨"undo_a", [], "sA"⟩, ⟨"undo_b", [], "sB"⟩],
    rollback_executed := false }

/-- Witness for claim C1 at a concrete two-entry stack: the audit entries
come back in reverse registration order `sB, sA`. -/
theorem rollback_executes_all_in_reverse_order_witness :
    (sagaTwo.rollback execStub).results.map RollbackResult.step_id
      = ["sB", "sA"] :=
  ((rollback_executes_all_in_reverse_order sagaTwo execStub rfl).1).trans
    (by decide)

/-- Concrete saga with one registered compensation and rollback not yet
executed. -/
def sagaOne : SagaContext :=
  { compensation_stack := [⟨"cancel_flight", [], "step_0"⟩],
    rollback_executed := false }

/-- Counterexample to claim C3 as stated: after `rollback()` on a saga with
one registered compensation, `compensation_stack` is not empty — the Python
loop iterates `reversed(self.compensation_stack)` without popping, so the
list survives the rollback intact. -/
theorem rollback_leaves_stack_nonempty :
    (sagaOne.rollback execStub).saga.compensation_stack ≠ [] := by decide

/-- Claim C3 (amended): after `rollback()` completes, the saga is marked
rolled back (`rollback_executed = true`), so its entries can never be
executed again — a subsequent rollback invokes no compensation activity —
but the `compensation_stack` list itself is left unchanged rather than
emptied. -/
theorem rollback_marks_saga_rolled_back (saga : SagaContext)
    (exec exec' : ExecFn) :
    (saga.rollback exec).saga.rollback_executed = true
    ∧ (saga.rollback exec).saga.compensation_stack = saga.compensation_stack
    ∧ ((saga.rollback exec).saga.rollback exec').calls = [] := by
  rw [rollback_saga_eq]
  refine ⟨rfl, rfl, ?_⟩
  simp [SagaContext.rollback]

/-- Claim C5: `rollback()` is idempotent — on any saga on which rollback has
already executed (i.e. after any first `rollback()` call), a second call
returns the empty list, invokes no compensation activity, and leaves the
saga state unchanged. -/
theorem rollback_idempotent (saga : SagaContext) (exec exec' : ExecFn) :
    ((saga.rollback exec).saga.rollback exec').results = []
    ∧ ((saga.rollback exec).saga.rollback exec').calls = []
    ∧ ((saga.rollback exec).saga.rollback exec').saga
        = (saga.rollback exec).saga := by
  rw [rollback_saga_eq]
  simp [SagaContext.rollback]

/-- Claim C6: through `execute_with_compensation`, a failing activity has
its failure propagated to the caller with the saga (hence the compensation
stack) unchanged and nothing registered; a succeeding activity with a
declared compensation tool gets the compensation — with its input resolved
against this step's result — registered at the top of the stack before the
call returns, and with no declared compensation the stack is untouched. -/
theorem execute_with_compensation_registers_or_propagates
    (saga : SagaContext) (exec : ExecFn) (an : String) (ai : Dict)
    (ca : Option String) (ci : Option Dict) (sid : String) :
    (∀ e, exec an ai sid false = Except.error e →
      saga.execute_with_compensation exec an ai ca ci sid
        = (saga, Except.error e))
    ∧ (∀ r, exec an ai sid false = Except.ok r →
        (saga.execute_with_compensation exec an ai ca ci sid).2
            = Except.ok r
        ∧ (ca = Option.none →
            (saga.execute_with_compensation exec an ai ca ci sid).1 = saga)
        ∧ (∀ comp, ca = some comp →
            (saga.execute_with_compensation exec an ai ca ci sid).1.compensation_stack
              = saga.compensation_stack
                ++ [⟨comp,
                      SagaContext.inject_result_values (ci.getD []) r,
                      sid⟩])) := by
  constructor
  · intro e he
    simp [SagaContext.execute_with_compensation, he]
  · intro r hr
    refine ⟨?_, ?_, ?_⟩
    · cases ca <;>
        simp [SagaContext.execute_with_compensation, hr]
    · intro hca
      simp [SagaContext.execute_with_compensation, hr, hca]
    · intro comp hca
      simp [SagaContext.execute_with_compensation, hr, hca]

/-- Stub activity collaborator that always fails. -/
def execFailStub : ExecFn := fun _ _ _ _ => Except.error "boom"

/-- Witness for claim C6 at concrete inputs: a failing activity propagates
its error with the (empty) stack unchanged, and a succeeding activity with
compensation tool `"undo"` registers exactly that compensation. -/
theorem execute_with_compensation_registers_or_propagates_witness :
    SagaContext.execute_with_compensation {} execFailStub "tool" []
        (some "undo") Option.none "s0"
      = ({}, Except.error "boom")
    ∧ (SagaContext.execute_with_compensation {} execStub "tool" []
        (some "undo") Option.none "s0").1.compensation_stack
      = [⟨"undo", [], "s0"⟩] := by
  constructor
  · exact (execute_with_compensation_registers_or_propagates {} execFailStub
      "tool" [] (some "undo") Option.none "s0").1 "boom" rfl
  · have h := (((execute_with_compensation_registers_or_propagates {} execStub
      "tool" [] (some "undo") Option.none "s0").2 [] rfl)).2.2 "undo" rfl
    rw [h]
    rfl

/-- Claim C7: a compensation-input value of the placeholder form
`"\x7bresult.fieldX\x7d"` (any string starting with `"\x7bresult."`, whose
extracted field name is `fieldX`) resolves to the step result's `fieldX`
value when the result contains that field, and passes through as the
literal placeholder string when it is absent; and via
`execute_with_compensation` this resolution happens once, at registration
time, against the result of the step being compensated, with the resolved
dict frozen into the registered `CompensationStep`. -/
theorem inject_result_values_placeholder_resolution
    (k f s : String) (rest result : Dict)
    (hs : pyStartsWith s "\x7bresult." = true)
    (hf : pyReplace (pyReplace s "\x7bresult." "") "\x7d" "" = f) :
    (∀ w, dictGet result f = some w →
      SagaContext.inject_result_values ((k, Value.str s) :: rest) result
        = (k, w) :: SagaContext.inject_result_values rest result)
    ∧ (dictGet result f = Option.none →
      SagaContext.inject_result_values ((k, Value.str s) :: rest) result
        = (k, Value.str s) :: SagaContext.inject_result_values rest result)
    ∧ (∀ (saga : SagaContext) (exec : ExecFn) (an : String) (ai : Dict)
        (ca sid : String) (r : Dict), exec an ai sid false = Except.ok r →
        (saga.execute_with_compensation exec an ai (some ca)
            (some ((k, Value.str s) :: rest)) sid).1.compensation_stack
          = saga.compensation_stack
            ++ [⟨ca,
                  SagaContext.inject_result_values ((k, Value.str s) :: rest) r,
                  sid⟩]) := by
  refine ⟨?_, ?_, ?_⟩
  · intro w hw
    simp [SagaContext.inject_result_values, hs, hf, hw]
  · intro hw
    simp [SagaContext.inject_result_values, hs, hf, hw]
  · intro saga exec an ai ca sid r hr
    simp [SagaContext.execute_with_compensation, hr]

/-- Witness for claim C7 at the source docstring's own example: with result
`\x7b"booking_id": "BK123", "price": 500\x7d`, the placeholder
`"\x7bresult.booking_id\x7d"` resolves to `"BK123"`, and a placeholder for
the absent field `missing` passes through unchanged. -/
theorem inject_result_values_placeholder_resolution_witness :
    SagaContext.inject_result_values
        [("booking_id", Value.str "\x7bresult.booking_id\x7d")]
        [("booking_id", Value.str "BK123"), ("price", Value.int 500)]
      = [("booking_id", Value.str "BK123")]
    ∧ SagaContext.inject_result_values
        [("k", Value.str "\x7bresult.missing\x7d")]
        [("booking_id", Value.str "BK123"), ("price", Value.int 500)]
      = [("k", Value.str "\x7bresult.missing\x7d")] := by
  constructor
  · have h := (inject_result_values_placeholder_resolution "booking_id"
      "booking_id" "\x7bresult.booking_id\x7d" []
      [("booking_id", Value.str "BK123"), ("price", Value.int 500)]
      (by decide) (by decide)).1 (Value.str "BK123") (by decide)
    rw [h]
    rfl
  · have h := (inject_result_values_placeholder_resolution "k"
      "missing" "\x7bresult.missing\x7d" []
      [("booking_id", Value.str "BK123"), ("price", Value.int 500)]
      (by decide) (by decide)).2.1 (by decide)
    rw [h]
    rfl

/-! Checkpoint/continue-as-new signal behaviour of `_append_event`. -/

/-- Iterated `_append_event` over a list of events. -/
def appendEvents (st : WorkflowState) (es : List AgentEvent) : WorkflowState :=
  es.foldl append_event st

/-- An arbitrary event whose append leaves the derived state untouched. -/
def dummyEvent : AgentEvent :=
  AgentEvent.toolCallRequested "w" "noop" [] "s" Option.none

lemma append_event_events (st : WorkflowState) (ev : AgentEvent) :
    (append_event st ev).events = st.events ++ [ev] := by
  cases ev <;> simp [append_event] <;> split <;> rfl

lemma append_event_checkpoint_log (st : WorkflowState) (ev : AgentEvent) :
    (append_event st ev).checkpoint_log =
      if st.events.length + 1 ≥ MAX_HISTORY_SIZE then
        st.checkpoint_log ++ [st.events.length + 1]
      else st.checkpoint_log := by
  cases ev <;> simp [append_event] <;> split <;> rfl

lemma appendEvents_append_one (st : WorkflowState) (es : List AgentEvent)
    (e : AgentEvent) :
    appendEvents st (es ++ [e]) = append_event (appendEvents st es) e := by
  simp [appendEvents, List.foldl_append]

lemma appendEvents_replicate_length (n : Nat) :
    (appendEvents {} (List.replicate n dummyEvent)).events.length = n := by
  induction n with
  | zero => rfl
  | succ n ih =>
      rw [List.replicate_succ', appendEvents_append_one, append_event_events]
      simp [ih]

lemma appendEvents_checkpoint_before :
    ∀ n, n < MAX_HISTORY_SIZE →
      (appendEvents {} (List.replicate n dummyEvent)).checkpoint_log = [] := by
  intro n
  induction n with
  | zero => intro _; rfl
  | succ n ih =>
      intro h
      rw [List.replicate_succ', appendEvents_append_one,
        append_event_checkpoint_log, appendEvents_replicate_length]
      rw [if_neg (by omega)]
      exact ih (by omega)

/-- Claim C4 (code bug): the continue-as-new branch of `_append_event`
(condition `len(self.events) >= self.MAX_HISTORY_SIZE`) fires at the append
that reaches 1000 events — and again at the very next append, because the
continue-as-new cutover is a commented-out TODO, so the event log is never
reset and the condition stays true on every subsequent append. The claimed
fire-exactly-once behaviour fails. -/
theorem checkpoint_branch_fires_on_every_append_past_threshold :
    (appendEvents {} (List.replicate 1000 dummyEvent)).checkpoint_log
        = [1000]
    ∧ (appendEvents {} (List.replicate 1001 dummyEvent)).checkpoint_log
        = [1000, 1001] := by
  have h1000 :
      (appendEvents {} (List.replicate 1000 dummyEvent)).checkpoint_log
        = [1000] := by
    have he : (1000 : Nat) = 999 + 1 := rfl
    rw [he, List.replicate_succ', appendEvents_append_one,
      append_event_checkpoint_log, appendEvents_replicate_length,
      appendEvents_checkpoint_before 999 (by norm_num [MAX_HISTORY_SIZE])]
    norm_num [MAX_HISTORY_SIZE]
  refine ⟨h1000, ?_⟩
  have he : (1001 : Nat) = 1000 + 1 := rfl
  rw [he, List.replicate_succ', appendEvents_append_one,
    append_event_checkpoint_log, appendEvents_replicate_length, h1000]
  norm_num [MAX_HISTORY_SIZE]

/-! Cache soft-failure and failure-handler reporting. -/

/-- Claim C9: if the cache-lookup collaborator raises an activity error, the
run is not aborted — `_check_semantic_cache` returns `None` (a cache miss),
and the whole run behaves exactly as it would with a collaborator that
reports a miss, so it proceeds to plan generation. -/
theorem cache_error_treated_as_miss (c : Collaborators) (corr g u : String)
    (ctx : Option Dict) (e : String)
    (h : c.check_semantic_cache g = Except.error e) :
    check_semantic_cache c g = Option.none
    ∧ run c corr g u ctx
        = run { c with
                  check_semantic_cache := fun _ => Except.ok Option.none }
            corr g u ctx := by
  have h1 : check_semantic_cache c g = Option.none := by
    simp [check_semantic_cache, h]
  refine ⟨h1, ?_⟩
  simp only [run, check_semantic_cache, h]

/-- Collaborators whose cache lookup always raises. -/
def cCacheDown : Collaborators :=
  { check_semantic_cache := fun _ => Except.error "cache down",
    generate_plan_with_llm := fun _ _ => Except.ok ⟨"p1", []⟩,
    execute_activity := execStub }

/-- Witness for claim C9 at a concrete erroring cache collaborator. -/
theorem cache_error_treated_as_miss_witness :
    check_semantic_cache cCacheDown "goal" = Option.none
    ∧ run cCacheDown "w" "goal" "u" Option.none
        = run { cCacheDown with
                  check_semantic_cache := fun _ => Except.ok Option.none }
            "w" "goal" "u" Option.none :=
  cache_error_treated_as_miss cCacheDown "w" "goal" "u" Option.none
    "cache down" rfl

lemma handle_failure_spec (exec : ExecFn) (corr : String)
    (st : WorkflowState) (m : String) :
    (handle_failure exec corr st m).2.compensation_executed = true
    ∧ (handle_failure exec corr st m).2.error = m
    ∧ (handle_failure exec corr st m).1.events
        = st.events
          ++ [AgentEvent.workflowFailed corr st.plan_id st.failed_step_id m
                true (handle_failure exec corr st m).2.compensation_results] := by
  refine ⟨rfl, rfl, ?_⟩
  simp [handle_failure, append_event_events]

lemma run_after_plan_error (exec : ExecFn) (corr : String)
    (st : WorkflowState) (fr : FailureResult)
    (h : (run_after_plan exec corr st).2 = Except.error fr) :
    fr.compensation_executed = true
    ∧ ∃ pid fsid,
        (run_after_plan exec corr st).1.events.getLast?
          = some (AgentEvent.workflowFailed corr pid fsid fr.error true
              fr.compensation_results) := by
  unfold run_after_plan at h ⊢
  split at h
  next st' heq =>
    simp at h
  next st' e heq =>
    dsimp only at h ⊢
    rw [Except.error.injEq] at h
    subst h
    obtain ⟨h1, h2, h3⟩ := handle_failure_spec exec corr st' e
    refine ⟨h1, st'.plan_id, st'.failed_step_id, ?_⟩
    simp only [h3, h2, List.getLast?_concat]

/-- Claim C10: every failed run carries `compensation_executed = True` in
both its failure payload and the final `WorkflowFailed` event — the handler
hardcodes `True` (lines 506 and 516) regardless of whether any compensation
activity actually ran. -/
theorem failed_run_reports_compensation_executed (c : Collaborators)
    (corr g u : String) (ctx : Option Dict) (fr : FailureResult)
    (h : (run c corr g u ctx).2 = Except.error fr) :
    fr.compensation_executed = true
    ∧ ∃ pid fsid,
        (run c corr g u ctx).1.events.getLast?
          = some (AgentEvent.workflowFailed corr pid fsid fr.error true
              fr.compensation_results) := by
  unfold run at h ⊢
  dsimp only at h ⊢
  split at h
  next cached heq =>
    exact run_after_plan_error c.execute_activity corr _ fr h
  next heq =>
    split at h
    next plan hgp =>
      exact run_after_plan_error c.execute_activity corr _ fr h
    next e hgp =>
      dsimp only at h ⊢
      rw [Except.error.injEq] at h
      subst h
      obtain ⟨h1, h2, h3⟩ := handle_failure_spec c.execute_activity corr
        (append_event {} (AgentEvent.goalReceived corr g u ctx)) e
      refine ⟨h1,
        (append_event {} (AgentEvent.goalReceived corr g u ctx)).plan_id,
        (append_event {} (AgentEvent.goalReceived corr g u ctx)).failed_step_id,
        ?_⟩
      simp only [h3, h2, List.getLast?_concat]

/-- Collaborators whose planner always raises (plan generation fails before
any step executes, so the compensation stack is empty). -/
def cPlanDown : Collaborators :=
  { check_semantic_cache := fun _ => Except.ok Option.none,
    generate_plan_with_llm := fun _ _ => Except.error "llm down",
    execute_activity := execStub }

/-- Failure payload of the `cPlanDown` run. -/
def frPlanDown : FailureResult :=
  { status := "failed", plan_id := "", failed_step_id := "",
    error := "llm down", compensation_executed := true,
    compensation_results := [] }

/-- Witness for claim C10 at a concrete run whose plan generation fails: the
stack is empty, no compensation ran (`compensation_results = []`), and the
payload still reports `compensation_executed = true`. -/
theorem failed_run_reports_compensation_executed_witness :
    frPlanDown.compensation_executed = true
    ∧ (∃ pid fsid,
        (run cPlanDown "w" "g" "u" Option.none).1.events.getLast?
          = some (AgentEvent.workflowFailed "w" pid fsid frPlanDown.error true
              frPlanDown.compensation_results))
    ∧ (run cPlanDown "w" "g" "u" Option.none).1.saga.compensation_stack = []
    ∧ frPlanDown.compensation_results = [] := by
  have h := failed_run_reports_compensation_executed cPlanDown "w" "g" "u"
    Option.none frPlanDown rfl
  exact ⟨h.1, h.2, rfl, rfl⟩

/-! Derived state versus replaying the event log. -/

/-- Agreement between a workflow state's event-handled derived fields and
the pure fold of the `_append_event` state-update function over its event
log. `goal`, `user_id`, `plan_id` and `plan_steps` are the fields the
state-update function actually produces. -/
def replayAgrees (st : WorkflowState) : Prop :=
  st.goal = (replay st.events).goal
  ∧ st.user_id = (replay st.events).user_id
  ∧ st.plan_id = (replay st.events).plan_id
  ∧ st.plan_steps = (replay st.events).plan_steps

lemma replay_concat (es : List AgentEvent) (e : AgentEvent) :
    replay (es ++ [e]) = update_derived (replay es) e := by
  simp [replay, List.foldl_append]

lemma replayAgrees_append (st : WorkflowState) (e : AgentEvent)
    (h : replayAgrees st) : replayAgrees (append_event st e) := by
  obtain ⟨h1, h2, h3, h4⟩ := h
  cases e <;>
    (simp only [append_event]
     split <;>
       simp_all [replayAgrees, replay_concat, update_derived])

lemma replayAgrees_execute_plan_step (exec : ExecFn) (corr : String)
    (st : WorkflowState) (idx : Nat) (step : PlanStep)
    (h : replayAgrees st) :
    replayAgrees (execute_plan_step exec corr st idx step).1 := by
  unfold execute_plan_step
  dsimp only
  split
  · exact replayAgrees_append _ _ (replayAgrees_append _ _ h)
  · exact replayAgrees_append _ _ (replayAgrees_append _ _ h)

lemma replayAgrees_execute_plan_loop (exec : ExecFn) (corr : String) :
    ∀ (steps : List PlanStep) (st : WorkflowState) (idx : Nat),
      replayAgrees st →
      replayAgrees (execute_plan_loop exec corr st idx steps).1
  | [], _, _, h => h
  | step :: rest, st, idx, h => by
      unfold execute_plan_loop
      split
      next st' heq =>
        have hstep := replayAgrees_execute_plan_step exec corr st idx step h
        rw [heq] at hstep
        exact replayAgrees_execute_plan_loop exec corr rest st' (idx + 1) hstep
      next st' e heq =>
        have hstep := replayAgrees_execute_plan_step exec corr st idx step h
        rw [heq] at hstep
        exact hstep

lemma replayAgrees_handle_success (corr : String) (st : WorkflowState)
    (h : replayAgrees st) : replayAgrees (handle_success corr st).1 := by
  unfold handle_success
  exact replayAgrees_append _ _ h

lemma replayAgrees_handle_failure (exec : ExecFn) (corr : String)
    (st : WorkflowState) (m : String) (h : replayAgrees st) :
    replayAgrees (handle_failure exec corr st m).1 := by
  unfold handle_failure
  exact replayAgrees_append _ _ h

lemma replayAgrees_run_after_plan (exec : ExecFn) (corr : String)
    (st : WorkflowState) (h : replayAgrees st) :
    replayAgrees (run_after_plan exec corr st).1 := by
  unfold run_after_plan
  have hp : replayAgrees (execute_plan exec corr st).1 :=
    replayAgrees_execute_plan_loop exec corr st.plan_steps st 0 h
  split
  next st' heq =>
    rw [heq] at hp
    exact replayAgrees_handle_success corr st' hp
  next st' e heq =>
    rw [heq] at hp
    exact replayAgrees_handle_failure exec corr st' e hp

lemma replayAgrees_init : replayAgrees ({} : WorkflowState) :=
  ⟨rfl, rfl, rfl, rfl⟩

lemma replayAgrees_run (c : Collaborators) (corr g u : String)
    (ctx : Option Dict) : replayAgrees (run c corr g u ctx).1 := by
  unfold run
  have h1 := replayAgrees_append {} (AgentEvent.goalReceived corr g u ctx)
    replayAgrees_init
  split
  · exact replayAgrees_run_after_plan _ corr _
      (replayAgrees_append _ _ h1)
  · split
    · exact replayAgrees_run_after_plan _ corr _
        (replayAgrees_append _ _ h1)
    · exact replayAgrees_handle_failure _ corr _ _ h1

/-- Collaborators for a one-step run that succeeds. -/
def cOneStep : Collaborators :=
  { check_semantic_cache := fun _ => Except.ok Option.none,
    generate_plan_with_llm := fun _ _ => Except.ok
      ⟨"p1", [{ id := Option.none, name := Option.none, tool := "t1",
                input := [], compensation := Option.none,
                compensation_input := Option.none }]⟩,
    execute_activity := fun _ _ _ _ => Except.ok [("ok", Value.bool true)] }

/-- Counterexample to claim C2 as stated: at the end of a concrete
successful one-step run (i.e. immediately after the final append), the
run's `step_results` does not equal the `step_results` obtained by folding
the `_append_event` state-update function over the full event list — that
update function handles only `GoalReceived` and `PlanGenerated`, while
`step_results` is mutated directly in `_execute_plan` (line 454). -/
theorem step_results_not_replay_of_events :
    (run cOneStep "w" "g" "u" Option.none).1.step_results ≠
      (replay (run cOneStep "w" "g" "u" Option.none).1.events).step_results := by
  decide

/-- Claim C2 (amended): the event-handled derived-state fields — goal,
userId, planId, plan steps — are always a pure fold of the `_append_event`
state-update function over the full event list: the agreement is preserved
by every append and holds for the final state of every run. The remaining
derived fields (`step_results`, `failed_step_id`) are mutated directly in
`_execute_plan`, outside the state-update function, and are not produced by
that fold. -/
theorem derived_state_replay_agreement :
    (∀ (st : WorkflowState) (e : AgentEvent),
        replayAgrees st → replayAgrees (append_event st e))
    ∧ (∀ (c : Collaborators) (corr g u : String) (ctx : Option Dict),
        replayAgrees (run c corr g u ctx).1) :=
  ⟨replayAgrees_append, replayAgrees_run⟩

/-- Witness for claim C2 (amended) at concrete inputs: the agreement holds
after appending to the initial state and for the final state of a concrete
successful run. -/
theorem derived_state_replay_agreement_witness :
    replayAgrees (append_event {} dummyEvent)
    ∧ replayAgrees (run cOneStep "w" "g" "u" Option.none).1 :=
  ⟨derived_state_replay_agreement.1 {} dummyEvent replayAgrees_init,
    derived_state_replay_agreement.2 cOneStep "w" "g" "u" Option.none⟩

/-! Step results of successful runs. -/

/-- Computed step ids of a plan, in execution order, starting at index
`idx` (mirrors `enumerate(self.plan_steps)` with
`step.get("id", f"step_\x7bidx\x7d")`). -/
def planIds : List PlanStep → Nat → List String
  | [], _ => []
  | step :: rest, idx => step.stepId idx :: planIds rest (idx + 1)

/-- Keys of a string-keyed dict, in insertion order. -/
def dictKeys (d : List (String × Dict)) : List String := d.map Prod.fst

lemma dictKeys_length (d : List (String × Dict)) :
    (dictKeys d).length = d.length := by
  simp [dictKeys]

lemma dictKeys_insert_fresh (d : List (String × Dict)) (k : String) (v : Dict)
    (h : k ∉ dictKeys d) :
    dictKeys (dictInsert d k v) = dictKeys d ++ [k] := by
  induction d with
  | nil => simp [dictInsert, dictKeys]
  | cons p rest ih =>
      obtain ⟨k', v'⟩ := p
      simp only [dictKeys, List.map_cons, List.mem_cons] at h
      push_neg at h
      rw [dictInsert, if_neg (fun hk => h.1 hk.symm)]
      simp only [dictKeys, List.map_cons, List.cons_append, List.cons.injEq,
        true_and]
      exact ih h.2

/-- Recogniser for the `PlanGenerated` variant. -/
def AgentEvent.isPlanGenerated : AgentEvent → Bool
  | AgentEvent.planGenerated _ _ _ _ _ => true
  | _ => false

lemma append_event_plan_steps (st : WorkflowState) (ev : AgentEvent)
    (h : ev.isPlanGenerated = false) :
    (append_event st ev).plan_steps = st.plan_steps := by
  cases ev <;>
    first
      | (simp only [append_event]; split <;> rfl)
      | simp [AgentEvent.isPlanGenerated] at h

lemma append_event_step_results (st : WorkflowState) (ev : AgentEvent) :
    (append_event st ev).step_results = st.step_results := by
  cases ev <;> (simp only [append_event]; split <;> rfl)

lemma execute_plan_step_success (exec : ExecFn) (corr : String)
    (st : WorkflowState) (idx : Nat) (step : PlanStep) (st' : WorkflowState)
    (h : execute_plan_step exec corr st idx step = (st', Option.none)) :
    (∃ r, st'.step_results
        = dictInsert st.step_results (step.stepId idx) r)
    ∧ st'.plan_steps = st.plan_steps := by
  unfold execute_plan_step at h
  dsimp only at h
  split at h
  next result heq =>
    injection h with h1 h2
    subst h1
    refine ⟨⟨result, ?_⟩, ?_⟩
    · simp [append_event_step_results]
    · simp [append_event_plan_steps, AgentEvent.isPlanGenerated]
  next e heq =>
    injection h with h1 h2
    simp at h2

lemma execute_plan_loop_success (exec : ExecFn) (corr : String) :
    ∀ (steps : List PlanStep) (st : WorkflowState) (idx : Nat)
      (st' : WorkflowState),
      execute_plan_loop exec corr st idx steps = (st', Option.none) →
      (planIds steps idx).Nodup →
      (∀ k ∈ planIds steps idx, k ∉ dictKeys st.step_results) →
      st'.step_results.length = st.step_results.length + steps.length
      ∧ dictKeys st'.step_results
          = dictKeys st.step_results ++ planIds steps idx
      ∧ st'.plan_steps = st.plan_steps
  | [], st, idx, st', h, _, _ => by
      unfold execute_plan_loop at h
      injection h with h1 h2
      subst h1
      simp [planIds]
  | step :: rest, st, idx, st', h, hnd, hdis => by
      unfold execute_plan_loop at h
      split at h
      next st'' heq =>
        obtain ⟨⟨r, hres⟩, hsteps⟩ :=
          execute_plan_step_success exec corr st idx step st'' heq
        have hid_mem : step.stepId idx ∈ planIds (step :: rest) idx := by
          simp [planIds]
        have hfresh : step.stepId idx ∉ dictKeys st.step_results :=
          hdis _ hid_mem
        have hkeys'' : dictKeys st''.step_results
            = dictKeys st.step_results ++ [step.stepId idx] := by
          rw [hres]
          exact dictKeys_insert_fresh _ _ _ hfresh
        have hlen'' : st''.step_results.length
            = st.step_results.length + 1 := by
          rw [← dictKeys_length, hkeys'']
          simp [dictKeys_length]
        have hnd' : (planIds rest (idx + 1)).Nodup := by
          rw [planIds, List.nodup_cons] at hnd
          exact hnd.2
        have hhead : step.stepId idx ∉ planIds rest (idx + 1) := by
          rw [planIds, List.nodup_cons] at hnd
          exact hnd.1
        have hdis' : ∀ k ∈ planIds rest (idx + 1),
            k ∉ dictKeys st''.step_results := by
          intro k hk
          rw [hkeys'']
          simp only [List.mem_append, List.mem_singleton]
          push_neg
          refine ⟨hdis k ?_, ?_⟩
          · rw [planIds]
            exact List.mem_cons_of_mem _ hk
          · intro hkid
            exact hhead (hkid ▸ hk)
        obtain ⟨ih1, ih2, ih3⟩ := execute_plan_loop_success exec corr rest
          st'' (idx + 1) st' h hnd' hdis'
        refine ⟨?_, ?_, ?_⟩
        · rw [ih1, hlen'']
          simp [List.length_cons]
          omega
        · rw [ih2, hkeys'', planIds]
          simp
        · rw [ih3, hsteps]
      next st'' e heq =>
        injection h with h1 h2
        simp at h2

lemma handle_success_spec (corr : String) (st : WorkflowState) :
    (handle_success corr st).2.results = st.step_results
    ∧ (handle_success corr st).1.events
        = st.events ++ [AgentEvent.workflowCompleted corr st.plan_id
            st.plan_steps.length st.step_results]
    ∧ (handle_success corr st).1.plan_steps = st.plan_steps := by
  refine ⟨rfl, ?_, ?_⟩
  · simp [handle_success, append_event_events]
  · simp [handle_success, append_event_plan_steps, AgentEvent.isPlanGenerated]

lemma execute_plan_step_plan_steps (exec : ExecFn) (corr : String)
    (st : WorkflowState) (idx : Nat) (step : PlanStep) :
    (execute_plan_step exec corr st idx step).1.plan_steps
      = st.plan_steps := by
  unfold execute_plan_step
  dsimp only
  split <;> simp [append_event_plan_steps, AgentEvent.isPlanGenerated]

lemma execute_plan_loop_plan_steps (exec : ExecFn) (corr : String) :
    ∀ (steps : List PlanStep) (st : WorkflowState) (idx : Nat),
      (execute_plan_loop exec corr st idx steps).1.plan_steps = st.plan_steps
  | [], _, _ => rfl
  | step :: rest, st, idx => by
      unfold execute_plan_loop
      split
      next st' heq =>
        have h1 := execute_plan_step_plan_steps exec corr st idx step
        rw [heq] at h1
        rw [execute_plan_loop_plan_steps exec corr rest st' (idx + 1)]
        exact h1
      next st' e heq =>
        have h1 := execute_plan_step_plan_steps exec corr st idx step
        rw [heq] at h1
        exact h1

lemma run_after_plan_ok (exec : ExecFn) (corr : String) (st : WorkflowState)
    (r : SuccessResult)
    (h : (run_after_plan exec corr st).2 = Except.ok r)
    (hempty : st.step_results = [])
    (hids : (planIds ((run_after_plan exec corr st).1.plan_steps) 0).Nodup) :
    r.results.length = (run_after_plan exec corr st).1.plan_steps.length
    ∧ ∃ ev, (run_after_plan exec corr st).1.events.getLast? = some ev
        ∧ ev.isWorkflowCompleted = true := by
  unfold run_after_plan at h hids ⊢
  revert hids
  split at h
  next st' heq =>
    dsimp only at h ⊢
    rw [Except.ok.injEq] at h
    subst h
    intro hids
    obtain ⟨hs1, hs2, hs3⟩ := handle_success_spec corr st'
    have hpres : st'.plan_steps = st.plan_steps := by
      have h1 := execute_plan_loop_plan_steps exec corr st.plan_steps st 0
      unfold execute_plan at heq
      rw [heq] at h1
      exact h1
    rw [hs3, hpres] at hids
    unfold execute_plan at heq
    obtain ⟨l1, l2, l3⟩ := execute_plan_loop_success exec corr st.plan_steps
      st 0 st' heq hids (by rw [hempty]; intro k _; simp [dictKeys])
    constructor
    · rw [hs1, hs3, hpres, l1, hempty]
      simp
    · rw [hs2]
      exact ⟨_, List.getLast?_concat _, rfl⟩
  next st' e heq =>
    dsimp only at h
    exact absurd h (by simp)

/-- Claim C8 (amended): for every successful run whose computed step ids
(`step.get("id", f"step_\x7bidx\x7d")`) are pairwise distinct, the
step-results mapping has exactly one entry per plan step
(`len(results) == len(planSteps)`), and `WorkflowCompleted` is the last
event appended to the event log. Distinctness is necessary: two plan steps
carrying the same explicit id share one dict slot (the counterexample). -/
theorem successful_run_results_complete (c : Collaborators)
    (corr g u : String) (ctx : Option Dict) (r : SuccessResult)
    (hok : (run c corr g u ctx).2 = Except.ok r)
    (hids : (planIds ((run c corr g u ctx).1.plan_steps) 0).Nodup) :
    r.results.length = (run c corr g u ctx).1.plan_steps.length
    ∧ ∃ ev, (run c corr g u ctx).1.events.getLast? = some ev
        ∧ ev.isWorkflowCompleted = true := by
  unfold run at hok hids ⊢
  revert hids
  split at hok
  next cached heq =>
    intro hids
    refine run_after_plan_ok _ corr _ r hok ?_ hids
    simp [append_event_step_results]
  next heq =>
    split at hok
    next plan hgp =>
      intro hids
      refine run_after_plan_ok _ corr _ r hok ?_ hids
      simp [append_event_step_results]
    next e hgp =>
      intro hids
      dsimp only at hok
      exact absurd hok (by simp)

/-- Collaborators producing a two-step plan whose steps carry the same
explicit id `"a"`; every activity succeeds. -/
def cDup : Collaborators :=
  { check_semantic_cache := fun _ => Except.ok Option.none,
    generate_plan_with_llm := fun _ _ => Except.ok
      ⟨"p1",
        [{ id := some "a", name := Option.none, tool := "t1", input := [],
           compensation := Option.none, compensation_input := Option.none },
         { id := some "a", name := Option.none, tool := "t2", input := [],
           compensation := Option.none, compensation_input := Option.none }]⟩,
    execute_activity := fun _ _ _ _ => Except.ok [] }

/-- Counterexample to claim C8 as stated: a successful run over a two-step
plan whose steps share the explicit id `"a"` ends with a single entry in
the step-results mapping (the second `self.step_results[step_id] = result`
overwrites the first), so `len(results) ≠ len(planSteps)`. -/
theorem duplicate_step_ids_collapse_results :
    ∃ r, (run cDup "w" "g" "u" Option.none).2 = Except.ok r
      ∧ r.results.length
          ≠ (run cDup "w" "g" "u" Option.none).1.plan_steps.length :=
  ⟨_, rfl, by decide⟩

/-- Success payload of the `cOneStep` run. -/
def rOneStep : SuccessResult :=
  { status := "completed", plan_id := "p1", steps_executed := 1,
    results := [("step_0", [("ok", Value.bool true)])] }

/-- Witness for claim C8 (amended) at a concrete successful one-step run
with distinct step ids. -/
theorem successful_run_results_complete_witness :
    rOneStep.results.length
        = (run cOneStep "w" "g" "u" Option.none).1.plan_steps.length
    ∧ ∃ ev, (run cOneStep "w" "g" "u" Option.none).1.events.getLast?
          = some ev
        ∧ ev.isWorkflowCompleted = true :=
  successful_run_results_complete cOneStep "w" "g" "u" Option.none rOneStep
    rfl (by decide)

end AgentSaga
